import Mathlib

/-!
# Verification of the Кабак word-guessing bot game engine

A shallow embedding of the game engine in `bot.py`: the pure word
comparison (`compare_word`, lines 77-93) and scoring (`score_from`,
lines 96-98), the turn queue rotation (`advance_queue`, lines 165-179),
player registration (`join`, lines 250-269), game start (`begin`, lines
272-300), guess handling (`handle_guess_word`, lines 454-533), robbery
resolution (`steal_handler`, lines 558-606), and the game_state.json
snapshot written through `save_state` (lines 70-74), with the file-only
keys tracked separately from the in-memory session where they diverge.

Python strings are modelled as `List Char`, Python arbitrary-precision
integers as `Int` (scores) and `Nat` (ids/timestamps), Python dicts
keyed by user id as insertion-ordered association lists, and the two
mutable stores (`ctx.bot_data` and the `game_state.json` file contents)
as one explicit state record threaded through each handler.
-/

/-- The three per-letter verdicts produced by `compare_word`
("green" / "yellow" / "gray" strings in the source). -/
inductive Colour where
  | green
  | yellow
  | gray
deriving DecidableEq, Repr

/-- Python `str.upper()` restricted to the alphabets the game uses
(ASCII Latin and Russian Cyrillic); other characters are unchanged. -/
def upperChar (c : Char) : Char :=
  if 'a' ≤ c ∧ c ≤ 'z' then Char.ofNat (c.toNat - 32)
  else if 'а' ≤ c ∧ c ≤ 'я' then Char.ofNat (c.toNat - 32)
  else if c = 'ё' then 'Ё'
  else c

/-- Python `str.lower()` restricted to the same alphabets. -/
def lowerChar (c : Char) : Char :=
  if 'A' ≤ c ∧ c ≤ 'Z' then Char.ofNat (c.toNat + 32)
  else if 'А' ≤ c ∧ c ≤ 'Я' then Char.ofNat (c.toNat + 32)
  else if c = 'Ё' then 'ё'
  else c

/-- First loop of `compare_word` (bot.py lines 83-87): positions where the
guess letter equals the target letter are marked green; the target letters
of the other positions are collected, in order, into the `remaining` list. -/
def firstPass : List Char → List Char → List Colour × List Char
  | g :: gs, t :: ts =>
    let p := firstPass gs ts
    if g = t then (Colour.green :: p.1, p.2) else (Colour.gray :: p.1, t :: p.2)
  | _, _ => ([], [])

/-- Second loop of `compare_word` (bot.py lines 89-93): a gray position whose
guess letter still occurs in `remaining` becomes yellow and consumes the
first occurrence (Python `list.remove`). -/
def secondPass : List Char → List Colour → List Char → List Colour
  | g :: gs, c :: cs, rem =>
    if c = Colour.gray ∧ g ∈ rem then
      Colour.yellow :: secondPass gs cs (rem.erase g)
    else
      c :: secondPass gs cs rem
  | _, _, _ => []

/-- `compare_word(guess, target)` (bot.py lines 77-93): both words are
upper-cased, then the two passes run. -/
def compare_word (guess target : List Char) : List Colour :=
  secondPass (guess.map upperChar)
    (firstPass (guess.map upperChar) (target.map upperChar)).1
    (firstPass (guess.map upperChar) (target.map upperChar)).2

/-- `score_from(colours)` (bot.py lines 96-98): 10 per green, 5 per yellow,
0 per gray, summed. -/
def score_from (colours : List Colour) : Int :=
  (colours.map (fun c =>
    if c = Colour.green then (10 : Int) else if c = Colour.yellow then 5 else 0)).sum

/-- Number of positions whose guess letter is `c` and whose verdict is not
gray, i.e. the Exact/Partial marks attributed to the letter `c`. -/
def marked : List Char → List Colour → Char → Nat
  | g :: gs, r :: rs, c =>
    (if g = c ∧ r ≠ Colour.gray then 1 else 0) + marked gs rs c
  | _, _, _ => 0

/-- Occurrence count of a character in a word. -/
def countCh : List Char → Char → Nat
  | [], _ => 0
  | x :: xs, c => (if x = c then 1 else 0) + countCh xs c

theorem countCh_pos_of_mem {a : Char} : ∀ {rem : List Char}, a ∈ rem → 1 ≤ countCh rem a := by
  intro rem
  induction rem with
  | nil => intro h; cases h
  | cons x xs ih =>
    intro h
    rcases List.mem_cons.mp h with hx | hx
    · simp [countCh, hx.symm]
    · have := ih hx
      by_cases hxa : x = a <;> (simp [countCh, hxa]; try omega)

theorem countCh_erase_self {a : Char} : ∀ {rem : List Char}, a ∈ rem →
    countCh (rem.erase a) a + 1 = countCh rem a := by
  intro rem
  induction rem with
  | nil => intro h; cases h
  | cons x xs ih =>
    intro h
    by_cases hxa : x = a
    · subst hxa
      simp [List.erase_cons, countCh]
      omega
    · have hmem : a ∈ xs := by
        rcases List.mem_cons.mp h with hx | hx
        · exact absurd hx.symm hxa
        · exact hx
      have := ih hmem
      simp [List.erase_cons, hxa, countCh, this]

theorem countCh_erase_ne {a c : Char} (hne : a ≠ c) :
    ∀ (rem : List Char), countCh (rem.erase a) c = countCh rem c := by
  intro rem
  induction rem with
  | nil => simp
  | cons x xs ih =>
    by_cases hxa : x = a
    · subst hxa
      simp [List.erase_cons, countCh, hne]
    · simp [List.erase_cons, hxa, countCh, ih]

theorem firstPass_count (c : Char) :
    ∀ (g t : List Char), g.length = t.length →
      marked g (firstPass g t).1 c + countCh (firstPass g t).2 c = countCh t c := by
  intro g
  induction g with
  | nil =>
    intro t h
    cases t with
    | nil => simp [firstPass, marked, countCh]
    | cons b ts => simp at h
  | cons a gs ih =>
    intro t h
    cases t with
    | nil => simp at h
    | cons b ts =>
      have hlen : gs.length = ts.length := by simpa using h
      have hih := ih ts hlen
      by_cases hab : a = b
      · subst hab
        have hfp : firstPass (a :: gs) (a :: ts)
            = (Colour.green :: (firstPass gs ts).1, (firstPass gs ts).2) := by
          simp [firstPass]
        rw [hfp]
        by_cases hac : a = c <;> simp [marked, countCh, hac] <;> omega
      · have hfp : firstPass (a :: gs) (b :: ts)
            = (Colour.gray :: (firstPass gs ts).1, b :: (firstPass gs ts).2) := by
          simp [firstPass, hab]
        rw [hfp]
        by_cases hbc : b = c <;> simp [marked, countCh, hbc] <;> omega

theorem secondPass_marked (c : Char) :
    ∀ (g : List Char) (cs : List Colour) (rem : List Char),
      marked g (secondPass g cs rem) c ≤ marked g cs c + countCh rem c := by
  intro g
  induction g with
  | nil => intro cs rem; simp [secondPass, marked]
  | cons a gs ih =>
    intro cs rem
    cases cs with
    | nil => simp [secondPass, marked]
    | cons d ds =>
      by_cases hcond : d = Colour.gray ∧ a ∈ rem
      · rw [secondPass, if_pos hcond]
        obtain ⟨hd, hmem⟩ := hcond
        subst hd
        have hih := ih ds (rem.erase a)
        by_cases hac : a = c
        · subst hac
          have h1 : 1 ≤ countCh rem a := countCh_pos_of_mem hmem
          have h2 : countCh (rem.erase a) a + 1 = countCh rem a :=
            countCh_erase_self hmem
          simp [marked] at hih ⊢
          omega
        · have h2 : countCh (rem.erase a) c = countCh rem c :=
            countCh_erase_ne hac rem
          simp [marked, hac] at hih ⊢
          omega
      · rw [secondPass, if_neg hcond]
        have hih := ih ds rem
        by_cases hac : a = c <;> by_cases hdg : d = Colour.gray <;>
          simp [marked, hac, hdg] at hih ⊢ <;> omega

theorem firstPass_self : ∀ (w : List Char),
    firstPass w w = (List.replicate w.length Colour.green, []) := by
  intro w
  induction w with
  | nil => simp [firstPass]
  | cons a ws ih => simp [firstPass, ih, List.replicate_succ]

theorem secondPass_green : ∀ (g rem : List Char),
    secondPass g (List.replicate g.length Colour.green) rem
      = List.replicate g.length Colour.green := by
  intro g
  induction g with
  | nil => intro rem; simp [secondPass]
  | cons a gs ih => intro rem; simp [secondPass, List.replicate_succ, ih]

theorem firstPass_fst_length : ∀ (g t : List Char), g.length = t.length →
    (firstPass g t).1.length = g.length := by
  intro g
  induction g with
  | nil => intro t h; simp [firstPass]
  | cons a gs ih =>
    intro t h
    cases t with
    | nil => simp at h
    | cons b ts =>
      have hlen : gs.length = ts.length := by simpa using h
      by_cases hab : a = b <;> simp [firstPass, hab, ih ts hlen]

theorem secondPass_length : ∀ (g : List Char) (cs : List Colour) (rem : List Char),
    (secondPass g cs rem).length = min g.length cs.length := by
  intro g
  induction g with
  | nil => intro cs rem; simp [secondPass]
  | cons a gs ih =>
    intro cs rem
    cases cs with
    | nil => simp [secondPass]
    | cons d ds =>
      by_cases hcond : d = Colour.gray ∧ a ∈ rem <;>
        simp [secondPass, hcond, ih, Nat.succ_min_succ]

/-- C3: for every pair of same-length words compared case-insensitively,
`compare_word` marks one classification per guess position by the two-pass
rule, a repeated secret letter never yields more Exact/Partial marks than
its occurrence count in the secret, for secret "PEACH" and guess "CHEAP"
all five positions are Partial, and a guess equal to the secret yields all
Exact. -/
theorem compare_word_spec :
    (∀ (guess target : List Char) (c : Char), guess.length = target.length →
        marked (guess.map upperChar) (compare_word guess target) c
          ≤ countCh (target.map upperChar) c)
  ∧ (∀ (guess target : List Char), guess.length = target.length →
        (compare_word guess target).length = guess.length)
  ∧ (∀ (w : List Char), compare_word w w = List.replicate w.length Colour.green)
  ∧ compare_word "CHEAP".toList "PEACH".toList = List.replicate 5 Colour.yellow := by
  refine ⟨?_, ?_, ?_, ?_⟩
  · intro guess target c h
    have hlen : (guess.map upperChar).length = (target.map upperChar).length := by
      simpa using h
    have h1 := firstPass_count c (guess.map upperChar) (target.map upperChar) hlen
    have h2 := secondPass_marked c (guess.map upperChar)
      (firstPass (guess.map upperChar) (target.map upperChar)).1
      (firstPass (guess.map upperChar) (target.map upperChar)).2
    rw [compare_word]
    omega
  · intro guess target h
    have hlen : (guess.map upperChar).length = (target.map upperChar).length := by
      simpa using h
    rw [compare_word, secondPass_length,
      firstPass_fst_length (guess.map upperChar) (target.map upperChar) hlen]
    simp
  · intro w
    rw [compare_word, firstPass_self]
    have := secondPass_green (w.map upperChar) []
    simpa using this
  · decide

/-- Closed instance of the duplicate-letter bound of `compare_word_spec`:
secret "ALLOW" contains a single letter O, so guess "LOLLY" earns at most
one non-gray mark for O. -/
theorem compare_word_spec_witness :
    marked ("LOLLY".toList.map upperChar) (compare_word "LOLLY".toList "ALLOW".toList) 'O'
      ≤ countCh ("ALLOW".toList.map upperChar) 'O' :=
  compare_word_spec.1 "LOLLY".toList "ALLOW".toList 'O' (by decide)

/-- Occurrence count of a verdict in a classification sequence. -/
def countCol : List Colour → Colour → Nat
  | [], _ => 0
  | x :: xs, c => (if x = c then 1 else 0) + countCol xs c

theorem score_from_cons (c : Colour) (cs : List Colour) :
    score_from (c :: cs)
      = (if c = Colour.green then (10 : Int) else if c = Colour.yellow then 5 else 0)
        + score_from cs := by
  simp [score_from]

theorem score_from_nonneg : ∀ (cs : List Colour), 0 ≤ score_from cs := by
  intro cs
  induction cs with
  | nil => simp [score_from]
  | cons c cs ih =>
    rw [score_from_cons]
    cases c <;> simp <;> omega

/-- C9: the scorer returns 10 per Exact (green) plus 5 per Partial (yellow)
plus 0 per Absent (gray), and the total is 0 iff every entry is Absent. -/
theorem score_from_spec (cs : List Colour) :
    score_from cs
      = 10 * (countCol cs Colour.green : Int) + 5 * (countCol cs Colour.yellow : Int)
    ∧ (score_from cs = 0 ↔ ∀ c ∈ cs, c = Colour.gray) := by
  induction cs with
  | nil => simp [score_from, countCol]
  | cons c cs ih =>
    obtain ⟨ih1, ih2⟩ := ih
    have hnn := score_from_nonneg cs
    constructor
    · rw [score_from_cons, ih1]
      cases c <;> (simp [countCol]; try push_cast; try ring)
    · rw [score_from_cons]
      cases c
      · simp
        omega
      · simp
        omega
      · simpa using ih2

/-- A registered player (bot.py lines 263-267): display name, integer
score, last-active timestamp (an ISO string in the source, a Nat here). -/
structure Player where
  username : String
  score : Int
  lastActive : Nat
deriving DecidableEq, Repr

/-- A recorded guess attempt (`last_attempt`, bot.py lines 505-510). -/
structure Attempt where
  userId : String
  username : String
  time : Nat
  word : List Char
deriving DecidableEq, Repr

/-- The mutable per-building state kept in game_state.json
(bot.py lines 288-291). -/
structure BuildingState where
  id : Nat
  lastAttempt : Option Attempt
  isClosed : Bool
deriving DecidableEq, Repr

/-- An immutable catalog entry from config.json, restricted to the fields
the engine logic reads (`id`, `target_word`). -/
structure Building where
  id : Nat
  targetWord : List Char
deriving DecidableEq, Repr

/-- The combined mutable session state: `ctx.bot_data` (players, queue,
state_game_active; bot.py lines 716-719) merged with the buildings list of
game_state.json. The insertion-ordered Python `players` dict is modelled as
an association list keyed by user id. -/
structure ModelState where
  players : List (String × Player)
  queue : List String
  buildings : List BuildingState
  gameActive : Bool
deriving DecidableEq, Repr

/-- `advance_queue` (bot.py lines 165-179), restricted to its effect on the
queue list: `q.append(q.pop(0))`, a no-op when the queue is empty. The
function also sets `state_game_active` (inlined at each call site below)
and fires a notification (transport I/O, not part of the session state). -/
def advance_queue : List String → List String
  | [] => []
  | x :: xs => xs ++ [x]

/-- The whitespace characters `str.strip()` removes. -/
def isSpaceChar (c : Char) : Bool :=
  c = ' ' || c = '\t' || c = '\n' || c = '\r' || c = '\x0b' || c = '\x0c'

/-- Python `str.strip()`. -/
def stripChars (s : List Char) : List Char :=
  ((s.dropWhile isSpaceChar).reverse.dropWhile isSpaceChar).reverse

/-- `upd.message.text.strip().upper()` (bot.py line 468). -/
def norm_word (raw : List Char) : List Char :=
  (stripChars raw).map upperChar

/-- In-place update of the registry entry of one user id. -/
def updatePlayer (uid : String) (f : Player → Player)
    (ps : List (String × Player)) : List (String × Player) :=
  ps.map (fun pr => if pr.1 = uid then (pr.1, f pr.2) else pr)

/-- `dyn.get("last_attempt")` where `dyn` is the first stored building
state with this id, defaulting to `{}` (bot.py lines 485-488). -/
def last_attempt_of (bs : List BuildingState) (bId : Nat) : Option Attempt :=
  (bs.find? (fun d => d.id = bId)).bind (fun d => d.lastAttempt)

/-- `dyn.get("is_closed")` with the same `{}` default (bot.py line 494). -/
def is_closed_of (bs : List BuildingState) (bId : Nat) : Bool :=
  ((bs.find? (fun d => d.id = bId)).map (fun d => d.isClosed)).getD false

/-- `last and last["word"].upper() == word` (bot.py line 489). -/
def dupMatch (last : Option Attempt) (word : List Char) : Bool :=
  match last with
  | some a => decide (a.word.map upperChar = word)
  | none => false

/-- bot.py lines 505-530: overwrite `dyn["last_attempt"]`, set
`dyn["is_closed"]` on an exact match, and substitute `dyn` back at every
list position carrying this id; when no stored entry has this id (`dyn`
defaulted to `{}`) the comprehension leaves the stored list unchanged. -/
def record_attempt (bId : Nat) (att : Attempt) (closedNow : Bool)
    (bs : List BuildingState) : List BuildingState :=
  match bs.find? (fun d => d.id = bId) with
  | some d =>
    bs.map (fun e => if e.id = bId then
      { d with lastAttempt := some att,
               isClosed := if closedNow then true else d.isClosed } else e)
  | none => bs

/-- The outcomes `handle_guess_word` reports back to the user. -/
inductive GuessReply where
  | notRegistered
  | notStarted
  | notYourTurn
  | invalidLength
  | notInDictionary
  | buildingNotFound
  | duplicateGuess
  | locationClosed
  | solved (points : Int)
  | progress (points : Int)
deriving DecidableEq, Repr

/-- `handle_guess_word` (bot.py lines 454-533) together with its
`active_player` decorator (lines 125-138). Every rejected precondition
returns its reply with the state untouched; an accepted guess awards the
points, stamps activity, overwrites the attempt record, closes the
building on an exact match, and rotates the queue. The word dictionary,
the building catalog, the raw guessed text and the current time are the
external inputs. (On an empty queue the source would raise IndexError at
line 463; the model answers notYourTurn there, and the branch is only
reachable with a nonempty queue once a game has begun.) -/
def handle_guess_word (dict : List (List Char)) (cfg : List Building)
    (uid : String) (bId : Nat) (raw : List Char) (now : Nat)
    (st : ModelState) : GuessReply × ModelState :=
  match st.players.find? (fun pr => pr.1 = uid) with
  | none => (.notRegistered, st)
  | some pr =>
    if st.gameActive = false then (.notStarted, st)
    else if st.queue.head? ≠ some uid then (.notYourTurn, st)
    else if (norm_word raw).length ≠ 5 then (.invalidLength, st)
    else if dict.contains ((norm_word raw).map lowerChar) = false then
      (.notInDictionary, st)
    else
      match cfg.find? (fun b => b.id = bId) with
      | none => (.buildingNotFound, st)
      | some building =>
        if dupMatch (last_attempt_of st.buildings bId) (norm_word raw) then
          (.duplicateGuess, st)
        else if is_closed_of st.buildings bId then (.locationClosed, st)
        else
          ((if (norm_word raw).map upperChar = building.targetWord.map upperChar then
              GuessReply.solved (score_from (compare_word (norm_word raw) building.targetWord))
            else
              GuessReply.progress (score_from (compare_word (norm_word raw) building.targetWord))),
           { players := updatePlayer uid (fun p =>
               { p with
                   score := p.score + score_from (compare_word (norm_word raw) building.targetWord),
                   lastActive := now }) st.players,
             queue := advance_queue st.queue,
             buildings := record_attempt bId ⟨uid, pr.2.username, now, norm_word raw⟩
               (decide ((norm_word raw).map upperChar = building.targetWord.map upperChar))
               st.buildings,
             gameActive := if st.queue.isEmpty then st.gameActive else true })

/-- The outcomes of `/join`. -/
inductive JoinReply where
  | adminCannotJoin
  | alreadyJoined
  | joined
deriving DecidableEq, Repr

/-- `join` (bot.py lines 250-269): the admin is refused, an existing
player is told so, otherwise the player is registered with score 0 and the
id is appended to the queue. -/
def join (adminId uid : String) (uname : String) (now : Nat)
    (st : ModelState) : JoinReply × ModelState :=
  if uid = adminId then (.adminCannotJoin, st)
  else if (st.players.find? (fun pr => pr.1 = uid)).isSome then (.alreadyJoined, st)
  else (.joined,
    { st with players := st.players ++ [(uid, ⟨uname, 0, now⟩)],
              queue := st.queue ++ [uid] })

/-- The outcomes of `/begin`. -/
inductive BeginReply where
  | noPlayers
  | started
deriving DecidableEq, Repr

/-- The `state["buildings"]` seeding of `begin` (bot.py lines 287-291). -/
def init_buildings (cfg : List Building) : List BuildingState :=
  cfg.map (fun b => ⟨b.id, none, false⟩)

/-- `begin` (bot.py lines 272-300): requires at least one registered
player, replaces the queue wholesale with a shuffle of all registered ids
(the shuffle outcome of `random.shuffle` is the `shuffled` argument),
seeds the per-building states when none are stored, and activates the
game. -/
def begin (shuffled : List String) (cfg : List Building)
    (st : ModelState) : BeginReply × ModelState :=
  if st.players.isEmpty then (.noPlayers, st)
  else (.started,
    { st with queue := shuffled,
              buildings := if st.buildings.isEmpty then init_buildings cfg else st.buildings,
              gameActive := true })

/-- The outcomes of steal resolution. -/
inductive StealReply where
  | notRegistered
  | notStarted
  | victimNotFound
  | resolved (dice : Nat) (success : Bool)
deriving DecidableEq, Repr

/-- The `steal:<victimId>` branch of `steal_handler` (bot.py lines
573-604) together with its `active_player` decorator: the victim id must
name a registered player, then the die decides the transfer (≥ 5: thief
+10 / victim −10, otherwise thief −2 / victim +2) and the queue rotates.
The caller is not compared against the queue head and the victim id is not
compared against the caller in this branch; `dice` is the outcome of
`random.randint(1, 6)`. The two score updates are applied thief-first,
exactly as in the source. -/
def steal_handler (dice : Nat) (uid targetId : String)
    (st : ModelState) : StealReply × ModelState :=
  match st.players.find? (fun pr => pr.1 = uid) with
  | none => (.notRegistered, st)
  | some _ =>
    if st.gameActive = false then (.notStarted, st)
    else
      match st.players.find? (fun pr => pr.1 = targetId) with
      | none => (.victimNotFound, st)
      | some _ =>
        if 5 ≤ dice then
          (.resolved dice true,
           { st with
               players := updatePlayer targetId (fun p => { p with score := p.score - 10 })
                 (updatePlayer uid (fun p => { p with score := p.score + 10 }) st.players),
               queue := advance_queue st.queue,
               gameActive := if st.queue.isEmpty then st.gameActive else true })
        else
          (.resolved dice false,
           { st with
               players := updatePlayer targetId (fun p => { p with score := p.score + 2 })
                 (updatePlayer uid (fun p => { p with score := p.score - 2 }) st.players),
               queue := advance_queue st.queue,
               gameActive := if st.queue.isEmpty then st.gameActive else true })

/-- The record persisted in game_state.json. The keys ever written are
"buildings", "queue" and "game_state": bot.py lines 287-293 write all
three inside `begin`; the guess-path save (lines 484, 528-531) loads the
file, rewrites only "buildings", and re-saves "queue" and "game_state"
verbatim as loaded. No key for the players dict (display names, scores,
last-active stamps) exists in any write, and `advance_queue` (called at
lines 532 and 601) rotates only `ctx.bot_data["queue"]` without saving.
`gameState = ""` stands for the "game_state" key being absent before the
first `begin`. -/
structure Snapshot where
  buildings : List BuildingState
  queue : List String
  gameState : String
deriving DecidableEq, Repr

/-- The pair of stores the program mutates: the process state (players and
queue in `ctx.bot_data`, plus the buildings list, which lives only in
game_state.json and which every handler reads from and writes through the
file — so the session `buildings` component IS the file's buildings list)
together with the two remaining file keys, "queue" and "game_state", which
only `begin` ever sets. -/
structure StoredWorld where
  state : ModelState
  fileQueue : List String
  fileGameState : String
deriving DecidableEq, Repr

/-- The current content of game_state.json for a world. -/
def snapshot_of (w : StoredWorld) : Snapshot :=
  ⟨w.state.buildings, w.fileQueue, w.fileGameState⟩

/-- `join` at world level: no `save_state` call occurs anywhere in `join`
(bot.py lines 250-269), so the file keys are untouched. -/
def world_join (adminId uid uname : String) (now : Nat)
    (w : StoredWorld) : JoinReply × StoredWorld :=
  ((join adminId uid uname now w.state).1,
   ⟨(join adminId uid uname now w.state).2, w.fileQueue, w.fileGameState⟩)

/-- `begin` at world level: on success lines 287-293 write the shuffled
queue and `game_state = "active"` to the file; on the no-players rejection
nothing is saved. -/
def world_begin (shuffled : List String) (cfg : List Building)
    (w : StoredWorld) : BeginReply × StoredWorld :=
  match (begin shuffled cfg w.state).1 with
  | .noPlayers =>
    (.noPlayers, ⟨(begin shuffled cfg w.state).2, w.fileQueue, w.fileGameState⟩)
  | .started =>
    (.started, ⟨(begin shuffled cfg w.state).2, shuffled, "active"⟩)

/-- `handle_guess_word` at world level: the save at lines 528-531 writes
back the dict loaded at line 484 with only its "buildings" entry replaced,
so the file's "queue" and "game_state" keys pass through unchanged — the
queue rotation of line 532 happens after the save and only in memory. -/
def world_guess (dict : List (List Char)) (cfg : List Building)
    (uid : String) (bId : Nat) (raw : List Char) (now : Nat)
    (w : StoredWorld) : GuessReply × StoredWorld :=
  ((handle_guess_word dict cfg uid bId raw now w.state).1,
   ⟨(handle_guess_word dict cfg uid bId raw now w.state).2,
    w.fileQueue, w.fileGameState⟩)

/-- `steal_handler` at world level: no `save_state` call occurs anywhere
in `steal_handler` (bot.py lines 558-606), so the file is untouched —
score transfers and the queue rotation of line 601 stay in memory only. -/
def world_steal (dice : Nat) (uid targetId : String)
    (w : StoredWorld) : StealReply × StoredWorld :=
  ((steal_handler dice uid targetId w.state).1,
   ⟨(steal_handler dice uid targetId w.state).2, w.fileQueue, w.fileGameState⟩)

/-- Score lookup in the registry. -/
def scoreOf (ps : List (String × Player)) (uid : String) : Option Int :=
  (ps.find? (fun pr => pr.1 = uid)).map (fun pr => pr.2.score)

theorem advance_queue_iterate_append : ∀ (l1 l2 : List String),
    advance_queue^[l1.length] (l1 ++ l2) = l2 ++ l1 := by
  intro l1
  induction l1 with
  | nil => intro l2; simp
  | cons x xs ih =>
    intro l2
    have h1 : advance_queue ((x :: xs) ++ l2) = xs ++ (l2 ++ [x]) := by
      simp [advance_queue]
    rw [List.length_cons, Function.iterate_succ_apply, h1, ih]
    simp

/-- C8: `advance_queue` is a cyclic rotate-left-by-one; applied n times to
a queue of n ids it restores the original order, and applied to the empty
queue it is a no-op (and total, so it cannot error). -/
theorem advance_queue_cycle :
    (∀ (q : List String), advance_queue^[q.length] q = q)
    ∧ advance_queue ([] : List String) = [] := by
  constructor
  · intro q
    have h := advance_queue_iterate_append q []
    simpa using h
  · rfl

/-- C2: a guess identical case-insensitively to the word of the
immediately prior recorded attempt at the same building is rejected with
the duplicate reply and the session state is returned unchanged — no queue
advance, no score change, no building-state change. -/
theorem duplicate_guess_rejected
    (dict : List (List Char)) (cfg : List Building) (uid : String) (bId : Nat)
    (raw : List Char) (now : Nat) (st : ModelState)
    (pr : String × Player) (building : Building) (d : BuildingState) (a : Attempt)
    (hp : st.players.find? (fun x => x.1 = uid) = some pr)
    (ha : st.gameActive = true)
    (hq : st.queue.head? = some uid)
    (hlen : (norm_word raw).length = 5)
    (hdict : dict.contains ((norm_word raw).map lowerChar) = true)
    (hcfg : cfg.find? (fun b => b.id = bId) = some building)
    (hdyn : st.buildings.find? (fun e => e.id = bId) = some d)
    (hlast : d.lastAttempt = some a)
    (hdup : a.word.map upperChar = norm_word raw) :
    handle_guess_word dict cfg uid bId raw now st = (GuessReply.duplicateGuess, st) := by
  have hmem : List.map lowerChar (norm_word raw) ∈ dict := by simpa using hdict
  simp [handle_guess_word, hp, ha, hq, hlen, hmem, hcfg,
    last_attempt_of, hdyn, dupMatch, hlast, hdup]

/-- Closed instance of `duplicate_guess_rejected`: resubmitting the word
of the recorded attempt at the building changes nothing. -/
theorem duplicate_guess_rejected_witness :
    handle_guess_word ["cheap".toList] [⟨1, "peach".toList⟩] "1" 1 "cheap".toList 4
      ⟨[("1", ⟨"alice", 25, 3⟩)], ["1"],
        [⟨1, some ⟨"1", "alice", 3, "CHEAP".toList⟩, false⟩], true⟩
      = (GuessReply.duplicateGuess,
         ⟨[("1", ⟨"alice", 25, 3⟩)], ["1"],
           [⟨1, some ⟨"1", "alice", 3, "CHEAP".toList⟩, false⟩], true⟩) :=
  duplicate_guess_rejected ["cheap".toList] [⟨1, "peach".toList⟩] "1" 1
    "cheap".toList 4
    ⟨[("1", ⟨"alice", 25, 3⟩)], ["1"],
      [⟨1, some ⟨"1", "alice", 3, "CHEAP".toList⟩, false⟩], true⟩
    ("1", ⟨"alice", 25, 3⟩) ⟨1, "peach".toList⟩
    ⟨1, some ⟨"1", "alice", 3, "CHEAP".toList⟩, false⟩
    ⟨"1", "alice", 3, "CHEAP".toList⟩
    (by decide) (by decide) (by decide) (by decide) (by decide) (by decide)
    (by decide) (by decide) (by decide)

/-- C10: the duplicate-attempt check precedes the closed-building check —
at a closed building, a guess equal case-insensitively to the last
recorded attempt is rejected as a duplicate, not as closed, and the state
is unchanged either way. -/
theorem duplicate_checked_before_closed
    (dict : List (List Char)) (cfg : List Building) (uid : String) (bId : Nat)
    (raw : List Char) (now : Nat) (st : ModelState)
    (pr : String × Player) (building : Building) (d : BuildingState) (a : Attempt)
    (hp : st.players.find? (fun x => x.1 = uid) = some pr)
    (ha : st.gameActive = true)
    (hq : st.queue.head? = some uid)
    (hlen : (norm_word raw).length = 5)
    (hdict : dict.contains ((norm_word raw).map lowerChar) = true)
    (hcfg : cfg.find? (fun b => b.id = bId) = some building)
    (hdyn : st.buildings.find? (fun e => e.id = bId) = some d)
    (hclosed : d.isClosed = true)
    (hlast : d.lastAttempt = some a)
    (hdup : a.word.map upperChar = norm_word raw) :
    handle_guess_word dict cfg uid bId raw now st = (GuessReply.duplicateGuess, st)
    ∧ GuessReply.duplicateGuess ≠ GuessReply.locationClosed := by
  constructor
  · have hmem : List.map lowerChar (norm_word raw) ∈ dict := by simpa using hdict
    simp [handle_guess_word, hp, ha, hq, hlen, hmem, hcfg,
      last_attempt_of, hdyn, dupMatch, hlast, hdup]
  · decide

/-- Closed instance of `duplicate_checked_before_closed`: resubmitting the
very word that closed a building is answered as a duplicate. -/
theorem duplicate_checked_before_closed_witness :
    handle_guess_word ["peach".toList] [⟨1, "peach".toList⟩] "2" 1 "peach".toList 9
      ⟨[("1", ⟨"alice", 50, 3⟩), ("2", ⟨"bob", 0, 0⟩)], ["2", "1"],
        [⟨1, some ⟨"1", "alice", 3, "PEACH".toList⟩, true⟩], true⟩
      = (GuessReply.duplicateGuess,
         ⟨[("1", ⟨"alice", 50, 3⟩), ("2", ⟨"bob", 0, 0⟩)], ["2", "1"],
           [⟨1, some ⟨"1", "alice", 3, "PEACH".toList⟩, true⟩], true⟩)
    ∧ GuessReply.duplicateGuess ≠ GuessReply.locationClosed :=
  duplicate_checked_before_closed ["peach".toList] [⟨1, "peach".toList⟩] "2" 1
    "peach".toList 9
    ⟨[("1", ⟨"alice", 50, 3⟩), ("2", ⟨"bob", 0, 0⟩)], ["2", "1"],
      [⟨1, some ⟨"1", "alice", 3, "PEACH".toList⟩, true⟩], true⟩
    ("2", ⟨"bob", 0, 0⟩) ⟨1, "peach".toList⟩
    ⟨1, some ⟨"1", "alice", 3, "PEACH".toList⟩, true⟩
    ⟨"1", "alice", 3, "PEACH".toList⟩
    (by decide) (by decide) (by decide) (by decide) (by decide) (by decide)
    (by decide) (by decide) (by decide) (by decide)

/-- C6 counterexample: `join` of a fresh non-admin user appends the id to
the turn queue at once (bot.py line 268) — the queue is not left unchanged
and is not empty before activation. -/
theorem join_touches_queue_cex :
    ((join "9" "7" "carol" 0 ⟨[], [], [], false⟩).2).queue = ["7"]
    ∧ ["7"] ≠ ([] : List String) := by
  constructor
  · rfl
  · decide

/-- C6 amended: joining as a non-admin, not-yet-registered user before the
game is active registers the player with score 0 and also appends the id
to the turn queue immediately; buildings and the active flag are
untouched. The queue is only replaced wholesale by the shuffle at `begin`
time. -/
theorem join_registers_and_appends :
    (∀ (adminId uid uname : String) (now : Nat) (st : ModelState),
        uid ≠ adminId →
        st.players.find? (fun pr => pr.1 = uid) = none →
        join adminId uid uname now st
          = (JoinReply.joined,
             ⟨st.players ++ [(uid, ⟨uname, 0, now⟩)], st.queue ++ [uid],
              st.buildings, st.gameActive⟩))
    ∧ (∀ (shuffled : List String) (cfg : List Building) (st : ModelState),
        st.players.isEmpty = false →
        ((begin shuffled cfg st).2).queue = shuffled) := by
  constructor
  · intro adminId uid uname now st hadmin hreg
    simp [join, hadmin, hreg]
  · intro shuffled cfg st hne
    simp [begin, hne]

/-- Closed instance of `join_registers_and_appends`. -/
theorem join_registers_and_appends_witness :
    join "9" "7" "carol" 0 ⟨[], [], [], false⟩
      = (JoinReply.joined, ⟨[("7", ⟨"carol", 0, 0⟩)], ["7"], [], false⟩) :=
  join_registers_and_appends.1 "9" "7" "carol" 0 ⟨[], [], [], false⟩
    (by decide) (by decide)

theorem updatePlayer_find_self (uid : String) (f : Player → Player) :
    ∀ (ps : List (String × Player)),
      (updatePlayer uid f ps).find? (fun pr => pr.1 = uid)
        = (ps.find? (fun pr => pr.1 = uid)).map (fun pr => (pr.1, f pr.2)) := by
  intro ps
  induction ps with
  | nil => simp [updatePlayer]
  | cons p ps ih =>
    by_cases hp : p.1 = uid
    · simp [updatePlayer, hp]
    · simp only [updatePlayer, List.map_cons] at ih ⊢
      rw [if_neg hp]
      rw [List.find?_cons_of_neg _ (by simpa using hp),
        List.find?_cons_of_neg _ (by simpa using hp)]
      exact ih

theorem updatePlayer_find_ne (uid other : String) (f : Player → Player)
    (hne : other ≠ uid) :
    ∀ (ps : List (String × Player)),
      (updatePlayer uid f ps).find? (fun pr => pr.1 = other)
        = ps.find? (fun pr => pr.1 = other) := by
  intro ps
  induction ps with
  | nil => simp [updatePlayer]
  | cons p ps ih =>
    simp only [updatePlayer, List.map_cons] at ih ⊢
    by_cases hp : p.1 = uid
    · have hno : ¬ p.1 = other := by
        rw [hp]
        exact fun h => hne h.symm
      rw [if_pos hp]
      rw [List.find?_cons_of_neg _ (by simpa using hno),
        List.find?_cons_of_neg _ (by simpa using hno)]
      exact ih
    · rw [if_neg hp]
      by_cases ho : p.1 = other
      · rw [List.find?_cons_of_pos _ (by simpa using ho),
          List.find?_cons_of_pos _ (by simpa using ho)]
      · rw [List.find?_cons_of_neg _ (by simpa using ho),
          List.find?_cons_of_neg _ (by simpa using ho)]
        exact ih

/-- C7: with a die value in [1,6] and distinct registered thief and
victim, a resolution transfers +10/−10 on a die ≥ 5 and −2/+2 otherwise;
the two deltas always sum to zero and the resulting scores are exact
integers with no floor (they may go negative). -/
theorem steal_outcome_deltas
    (dice : Nat) (uid targetId : String) (st : ModelState)
    (pt pv : String × Player)
    (hne : uid ≠ targetId)
    (hu : st.players.find? (fun pr => pr.1 = uid) = some pt)
    (hv : st.players.find? (fun pr => pr.1 = targetId) = some pv)
    (ha : st.gameActive = true)
    (hdice : 1 ≤ dice ∧ dice ≤ 6) :
    (5 ≤ dice →
       scoreOf ((steal_handler dice uid targetId st).2).players uid
           = some (pt.2.score + 10)
       ∧ scoreOf ((steal_handler dice uid targetId st).2).players targetId
           = some (pv.2.score - 10))
    ∧ (dice < 5 →
       scoreOf ((steal_handler dice uid targetId st).2).players uid
           = some (pt.2.score - 2)
       ∧ scoreOf ((steal_handler dice uid targetId st).2).players targetId
           = some (pv.2.score + 2))
    ∧ ((scoreOf ((steal_handler dice uid targetId st).2).players uid).getD 0
         - pt.2.score)
       + ((scoreOf ((steal_handler dice uid targetId st).2).players targetId).getD 0
         - pv.2.score) = 0 := by
  have hne' : targetId ≠ uid := fun h => hne h.symm
  by_cases h5 : 5 ≤ dice
  · have hst : (steal_handler dice uid targetId st).2
        = { st with
              players := updatePlayer targetId (fun p => { p with score := p.score - 10 })
                (updatePlayer uid (fun p => { p with score := p.score + 10 }) st.players),
              queue := advance_queue st.queue,
              gameActive := if st.queue.isEmpty then st.gameActive else true } := by
      simp [steal_handler, hu, ha, hv, h5]
    have hsu : scoreOf ((steal_handler dice uid targetId st).2).players uid
        = some (pt.2.score + 10) := by
      rw [hst]
      unfold scoreOf
      rw [updatePlayer_find_ne targetId uid _ hne, updatePlayer_find_self, hu]
      rfl
    have hsv : scoreOf ((steal_handler dice uid targetId st).2).players targetId
        = some (pv.2.score - 10) := by
      rw [hst]
      unfold scoreOf
      rw [updatePlayer_find_self, updatePlayer_find_ne uid targetId _ hne', hv]
      rfl
    refine ⟨fun _ => ⟨hsu, hsv⟩, fun hlt => absurd h5 (by omega), ?_⟩
    rw [hsu, hsv]
    simp
  · have hlt : dice < 5 := by omega
    have hst : (steal_handler dice uid targetId st).2
        = { st with
              players := updatePlayer targetId (fun p => { p with score := p.score + 2 })
                (updatePlayer uid (fun p => { p with score := p.score - 2 }) st.players),
              queue := advance_queue st.queue,
              gameActive := if st.queue.isEmpty then st.gameActive else true } := by
      simp [steal_handler, hu, ha, hv, h5]
    have hsu : scoreOf ((steal_handler dice uid targetId st).2).players uid
        = some (pt.2.score - 2) := by
      rw [hst]
      unfold scoreOf
      rw [updatePlayer_find_ne targetId uid _ hne, updatePlayer_find_self, hu]
      rfl
    have hsv : scoreOf ((steal_handler dice uid targetId st).2).players targetId
        = some (pv.2.score + 2) := by
      rw [hst]
      unfold scoreOf
      rw [updatePlayer_find_self, updatePlayer_find_ne uid targetId _ hne', hv]
      rfl
    refine ⟨fun hge => absurd hge h5, fun _ => ⟨hsu, hsv⟩, ?_⟩
    rw [hsu, hsv]
    simp

/-- Closed instance of `steal_outcome_deltas` at die 6. -/
theorem steal_outcome_deltas_witness :
    scoreOf ((steal_handler 6 "1" "2"
        ⟨[("1", ⟨"alice", 0, 0⟩), ("2", ⟨"bob", 0, 0⟩)], ["1", "2"], [], true⟩).2).players "1"
      = some ((0 : Int) + 10) :=
  ((steal_outcome_deltas 6 "1" "2"
      ⟨[("1", ⟨"alice", 0, 0⟩), ("2", ⟨"bob", 0, 0⟩)], ["1", "2"], [], true⟩
      ("1", ⟨"alice", 0, 0⟩) ("2", ⟨"bob", 0, 0⟩)
      (by decide) (by decide) (by decide) (by decide)
      ⟨by decide, by decide⟩).1 (by decide)).1

/-- Two registered players in an active game; the queue head is "1", so it
is the turn of alice, not of bob. -/
def outOfTurnSt : ModelState :=
  ⟨[("1", ⟨"alice", 0, 0⟩), ("2", ⟨"bob", 0, 0⟩)], ["1", "2"], [], true⟩

/-- C5 (code bug): the `steal:<victimId>` resolution path applies the
transfer and rotates the queue even though the caller "2" is not the
current queue head "1", and it also resolves a steal whose victim equals
the thief — neither a turn check nor a self-target check exists on this
path (bot.py lines 573-604). -/
theorem steal_skips_turn_and_target_checks :
    outOfTurnSt.queue.head? = some "1"
    ∧ (steal_handler 6 "2" "1" outOfTurnSt).1 = StealReply.resolved 6 true
    ∧ ((steal_handler 6 "2" "1" outOfTurnSt).2).players
        = [("1", ⟨"alice", -10, 0⟩), ("2", ⟨"bob", 10, 0⟩)]
    ∧ ((steal_handler 6 "2" "1" outOfTurnSt).2).queue = ["2", "1"]
    ∧ (steal_handler 6 "1" "1" outOfTurnSt).1 = StealReply.resolved 6 true := by
  refine ⟨rfl, rfl, ?_, rfl, rfl⟩
  decide

theorem steal_preserves_buildings (dice : Nat) (uid targetId : String)
    (st : ModelState) :
    ((steal_handler dice uid targetId st).2).buildings = st.buildings := by
  unfold steal_handler
  cases st.players.find? (fun pr => pr.1 = uid) with
  | none => rfl
  | some p =>
    by_cases h1 : st.gameActive = false
    · simp [h1]
    · cases st.players.find? (fun pr => pr.1 = targetId) with
      | none => simp [h1]
      | some q =>
        by_cases h5 : 5 ≤ dice <;> simp [h1, h5]

/-- Demo catalog with one building. -/
def demoCfg : List Building := [⟨1, "peach".toList⟩]

/-- The initial world: empty bot_data (bot.py lines 716-719) and a missing
game_state.json (`load_json` of a missing file yields `{}`). -/
def demoWorld0 : StoredWorld := ⟨⟨[], [], [], false⟩, [], ""⟩

/-- An active two-player world reached by two joins and a begin. -/
def demoWorldBase : StoredWorld :=
  (world_begin ["1", "2"] demoCfg
    ((world_join "9" "2" "bob" 0 ((world_join "9" "1" "alice" 0 demoWorld0).2)).2)).2

/-- Reached from `demoWorldBase` when the steal of bob by alice succeeds
(die 6). -/
def demoWorldWin : StoredWorld := (world_steal 6 "1" "2" demoWorldBase).2

/-- Reached from `demoWorldBase` when the same steal fails (die 3). -/
def demoWorldLoss : StoredWorld := (world_steal 3 "1" "2" demoWorldBase).2

/-- Reached from `demoWorldBase` when alice submits the scoring,
non-closing guess CHEAP at building 1: her score and the in-memory queue
change, while the save rewrites only the buildings list of the file. -/
def demoWorldGuess : StoredWorld :=
  (world_guess ["cheap".toList] demoCfg "1" 1 "cheap".toList 5 demoWorldBase).2

/-- C1 counterexample: steals never call save, so two reachable worlds
whose registries differ (alice 10 / bob −10 versus alice −2 / bob 2)
carry identical game_state.json contents — the player registry is not
among the persisted fields, so the original round-trip claim is false. -/
theorem save_drops_registry_cex :
    snapshot_of demoWorldWin = snapshot_of demoWorldLoss
    ∧ demoWorldWin.state ≠ demoWorldLoss.state := by
  constructor
  · rfl
  · decide

/-- C1 amended: save writes only the "buildings", "queue" and
"game_state" keys. The building states always round-trip (the file is
their sole store, so the snapshot carries exactly the session buildings);
the queue and status are written only by `begin` — a steal saves nothing
at all (its snapshot is unchanged although scores moved), and the
guess-path save re-persists the loaded queue and status verbatim, so
in-memory queue rotations are never persisted and the snapshot queue goes
stale (after one completed guess the live queue is ["2","1"] while the
saved queue is still the begin-time ["1","2"]). The player registry
appears in no write, so no load function can reconstruct every reachable
session from its snapshot. -/
theorem save_roundtrip_amended :
    (∀ (w : StoredWorld) (dice : Nat) (uid targetId : String),
        snapshot_of (world_steal dice uid targetId w).2 = snapshot_of w)
    ∧ (∀ (w : StoredWorld) (dict : List (List Char)) (cfg : List Building)
          (uid : String) (bId : Nat) (raw : List Char) (now : Nat),
        ((world_guess dict cfg uid bId raw now w).2).fileQueue = w.fileQueue
        ∧ ((world_guess dict cfg uid bId raw now w).2).fileGameState = w.fileGameState
        ∧ (snapshot_of (world_guess dict cfg uid bId raw now w).2).buildings
            = ((world_guess dict cfg uid bId raw now w).2).state.buildings)
    ∧ (∀ (w : StoredWorld) (shuffled : List String) (cfg : List Building),
        w.state.players.isEmpty = false →
        snapshot_of (world_begin shuffled cfg w).2
          = ⟨((world_begin shuffled cfg w).2).state.buildings, shuffled, "active"⟩)
    ∧ (demoWorldGuess.state.queue = ["2", "1"]
        ∧ (snapshot_of demoWorldGuess).queue = ["1", "2"]
        ∧ demoWorldGuess.state.queue ≠ (snapshot_of demoWorldGuess).queue)
    ∧ (∀ load : Snapshot → ModelState,
        ¬(load (snapshot_of demoWorldWin) = demoWorldWin.state
          ∧ load (snapshot_of demoWorldLoss) = demoWorldLoss.state)) := by
  refine ⟨?_, ?_, ?_, ?_, ?_⟩
  · intro w dice uid targetId
    unfold snapshot_of world_steal
    rw [steal_preserves_buildings]
  · intro w dict cfg uid bId raw now
    exact ⟨rfl, rfl, rfl⟩
  · intro w shuffled cfg hne
    simp [world_begin, begin, snapshot_of, hne]
  · refine ⟨rfl, rfl, ?_⟩
    decide
  · intro load hload
    obtain ⟨h1, h2⟩ := hload
    have heq : snapshot_of demoWorldWin = snapshot_of demoWorldLoss := rfl
    have hsame : demoWorldWin.state = demoWorldLoss.state := by
      rw [← h1, heq, h2]
    have hdiff : demoWorldWin.state ≠ demoWorldLoss.state := by decide
    exact hdiff hsame

/-- Closed instance of `save_roundtrip_amended`: even the constant load
function that perfectly restores the first world cannot also restore the
second one from its (identical) snapshot. -/
theorem save_roundtrip_amended_witness :
    ¬((fun _ : Snapshot => demoWorldWin.state) (snapshot_of demoWorldWin)
        = demoWorldWin.state
      ∧ (fun _ : Snapshot => demoWorldWin.state) (snapshot_of demoWorldLoss)
        = demoWorldLoss.state) :=
  save_roundtrip_amended.2.2.2.2 (fun _ => demoWorldWin.state)

theorem find_map_preserving (f : BuildingState → BuildingState)
    (hf : ∀ e, (f e).id = e.id) (j : Nat) :
    ∀ (bs : List BuildingState),
      (bs.map f).find? (fun e => e.id = j) = (bs.find? (fun e => e.id = j)).map f := by
  intro bs
  induction bs with
  | nil => simp
  | cons b bs ih =>
    by_cases hb : b.id = j
    · have hfb : (f b).id = j := by rw [hf]; exact hb
      rw [List.map_cons,
        List.find?_cons_of_pos _ (by simpa using hfb),
        List.find?_cons_of_pos _ (by simpa using hb)]
      rfl
    · have hfb : ¬(f b).id = j := by rw [hf]; exact hb
      rw [List.map_cons,
        List.find?_cons_of_neg _ (by simpa using hfb),
        List.find?_cons_of_neg _ (by simpa using hb)]
      exact ih

theorem record_attempt_find (bId j : Nat) (att : Attempt) (cn : Bool)
    (bs : List BuildingState) (d0 : BuildingState)
    (hfind : bs.find? (fun e => e.id = bId) = some d0) :
    (record_attempt bId att cn bs).find? (fun e => e.id = j)
      = if j = bId
        then some { d0 with lastAttempt := some att,
                            isClosed := if cn then true else d0.isClosed }
        else bs.find? (fun e => e.id = j) := by
  have hid : d0.id = bId := by simpa using List.find?_some hfind
  have hf : ∀ e, ((fun e => if e.id = bId then
      ({ d0 with lastAttempt := some att,
                 isClosed := if cn then true else d0.isClosed } : BuildingState)
      else e) e).id = e.id := by
    intro e
    by_cases he : e.id = bId <;> simp [he, hid]
  unfold record_attempt
  rw [hfind, find_map_preserving _ hf j]
  by_cases hj : j = bId
  · subst hj
    rw [hfind]
    simp [hid]
  · rw [if_neg hj]
    cases hd : bs.find? (fun e => e.id = j) with
    | none => rfl
    | some d =>
      have hdj : d.id = j := by simpa using List.find?_some hd
      have : ¬ d.id = bId := by rw [hdj]; exact hj
      simp [this]

theorem record_attempt_none (bId : Nat) (att : Attempt) (cn : Bool)
    (bs : List BuildingState)
    (hfind : bs.find? (fun e => e.id = bId) = none) :
    record_attempt bId att cn bs = bs := by
  unfold record_attempt
  rw [hfind]

/-- Branch analysis of `handle_guess_word`: either the state comes back
untouched (every rejection path), or the first stored state of the guessed
building was open or absent and the stored buildings become
`record_attempt` applied to them. -/
theorem handle_guess_buildings_shape (dict : List (List Char)) (cfg : List Building)
    (uid : String) (bId : Nat) (raw : List Char) (now : Nat) (st : ModelState) :
    (handle_guess_word dict cfg uid bId raw now st).2 = st
    ∨ ∃ att cn, is_closed_of st.buildings bId = false
        ∧ ((handle_guess_word dict cfg uid bId raw now st).2).buildings
            = record_attempt bId att cn st.buildings := by
  unfold handle_guess_word
  cases hp : st.players.find? (fun pr => pr.1 = uid) with
  | none => left; rfl
  | some pr =>
    by_cases h1 : st.gameActive = false
    · left; simp [h1]
    · by_cases h2 : st.queue.head? ≠ some uid
      · left; simp [h1, h2]
      · by_cases h3 : (norm_word raw).length ≠ 5
        · left; simp [h1, h2, h3]
        · by_cases h4 : dict.contains ((norm_word raw).map lowerChar) = false
          · have hnm : ¬((norm_word raw).map lowerChar ∈ dict) := by simpa using h4
            left; simp [h1, h2, h3, hnm]
          · have hm : (norm_word raw).map lowerChar ∈ dict := by simpa using h4
            cases hb : cfg.find? (fun b => b.id = bId) with
            | none => left; simp [h1, h2, h3, hm, hb]
            | some building =>
              by_cases h5 : dupMatch (last_attempt_of st.buildings bId) (norm_word raw)
                  = true
              · left; simp [h1, h2, h3, hm, hb, h5]
              · by_cases h6 : is_closed_of st.buildings bId = true
                · left; simp [h1, h2, h3, hm, hb, h5, h6]
                · right
                  refine ⟨⟨uid, pr.2.username, now, norm_word raw⟩,
                    decide ((norm_word raw).map upperChar
                      = building.targetWord.map upperChar),
                    by simpa using h6, ?_⟩
                  simp [h1, h2, h3, hm, hb, h5, h6]

theorem join_preserves_buildings (adminId uid uname : String) (now : Nat)
    (st : ModelState) :
    ((join adminId uid uname now st).2).buildings = st.buildings := by
  unfold join
  by_cases h1 : uid = adminId
  · simp [h1]
  · by_cases h2 : (st.players.find? (fun pr => pr.1 = uid)).isSome <;> simp [h1, h2]

theorem is_closed_of_eq (bs : List BuildingState) (bId : Nat) (d : BuildingState)
    (h : bs.find? (fun e => e.id = bId) = some d) :
    is_closed_of bs bId = d.isClosed := by
  simp [is_closed_of, h]

/-- C4 amended: a seeded building state starts open with no attempt; the
closed flag is set exactly by a recorded guess whose word equals the
secret case-insensitively; no guess, steal or join ever un-closes the
first stored state of a building (only the admin reset wipes the stored
file); and once that stored state is closed, every further guess at the
building — by any player — is rejected with the session unchanged, as
DuplicateGuess when the word equals the last recorded attempt
case-insensitively and as LocationClosed otherwise. -/
theorem closed_flag_lifecycle :
    (∀ (cfg : List Building), ∀ b ∈ init_buildings cfg,
        b.isClosed = false ∧ b.lastAttempt = none)
    ∧ (∀ (dict : List (List Char)) (cfg : List Building) (uid : String) (bId : Nat)
          (raw : List Char) (now : Nat) (st : ModelState) (j : Nat) (d : BuildingState),
        st.buildings.find? (fun e => e.id = j) = some d → d.isClosed = true →
        ∃ d', ((handle_guess_word dict cfg uid bId raw now st).2).buildings.find?
            (fun e => e.id = j) = some d' ∧ d'.isClosed = true)
    ∧ (∀ (dice : Nat) (uid targetId : String) (st : ModelState),
        ((steal_handler dice uid targetId st).2).buildings = st.buildings)
    ∧ (∀ (adminId uid uname : String) (now : Nat) (st : ModelState),
        ((join adminId uid uname now st).2).buildings = st.buildings)
    ∧ (∀ (dict : List (List Char)) (cfg : List Building) (uid : String) (bId : Nat)
          (raw : List Char) (now : Nat) (st : ModelState)
          (pr : String × Player) (building : Building) (d : BuildingState),
        st.players.find? (fun x => x.1 = uid) = some pr →
        st.gameActive = true →
        st.queue.head? = some uid →
        (norm_word raw).length = 5 →
        dict.contains ((norm_word raw).map lowerChar) = true →
        cfg.find? (fun b => b.id = bId) = some building →
        st.buildings.find? (fun e => e.id = bId) = some d →
        dupMatch d.lastAttempt (norm_word raw) = false →
        d.isClosed = false →
        ∃ d', ((handle_guess_word dict cfg uid bId raw now st).2).buildings.find?
            (fun e => e.id = bId) = some d'
          ∧ (d'.isClosed = true ↔ (norm_word raw).map upperChar
              = building.targetWord.map upperChar))
    ∧ (∀ (dict : List (List Char)) (cfg : List Building) (uid : String) (bId : Nat)
          (raw : List Char) (now : Nat) (st : ModelState)
          (pr : String × Player) (building : Building) (d : BuildingState),
        st.players.find? (fun x => x.1 = uid) = some pr →
        st.gameActive = true →
        st.queue.head? = some uid →
        (norm_word raw).length = 5 →
        dict.contains ((norm_word raw).map lowerChar) = true →
        cfg.find? (fun b => b.id = bId) = some building →
        st.buildings.find? (fun e => e.id = bId) = some d →
        d.isClosed = true →
        handle_guess_word dict cfg uid bId raw now st
          = (if dupMatch d.lastAttempt (norm_word raw)
             then (GuessReply.duplicateGuess, st)
             else (GuessReply.locationClosed, st))) := by
  refine ⟨?_, ?_, ?_, ?_, ?_, ?_⟩
  · intro cfg b hb
    simp [init_buildings] at hb
    obtain ⟨x, hx, rfl⟩ := hb
    exact ⟨rfl, rfl⟩
  · intro dict cfg uid bId raw now st j d hfind hclosed
    rcases handle_guess_buildings_shape dict cfg uid bId raw now st with
      hsame | ⟨att, cn, hopen, heq⟩
    · rw [hsame]
      exact ⟨d, hfind, hclosed⟩
    · rw [heq]
      cases hd0 : st.buildings.find? (fun e => e.id = bId) with
      | none =>
        rw [record_attempt_none _ _ _ _ hd0]
        exact ⟨d, hfind, hclosed⟩
      | some d0 =>
        rw [record_attempt_find bId j att cn st.buildings d0 hd0]
        by_cases hj : j = bId
        · subst hj
          rw [hfind] at hd0
          injection hd0 with hdd
          subst hdd
          rw [is_closed_of_eq st.buildings j d hfind, hclosed] at hopen
          simp at hopen
        · rw [if_neg hj]
          exact ⟨d, hfind, hclosed⟩
  · intro dice uid targetId st
    exact steal_preserves_buildings dice uid targetId st
  · intro adminId uid uname now st
    exact join_preserves_buildings adminId uid uname now st
  · intro dict cfg uid bId raw now st pr building d hp ha hq hlen hdict hcfg hdyn
      hnodup hopen
    have hm : (norm_word raw).map lowerChar ∈ dict := by simpa using hdict
    have hla : last_attempt_of st.buildings bId = d.lastAttempt := by
      simp [last_attempt_of, hdyn]
    have hco : is_closed_of st.buildings bId = false := by
      rw [is_closed_of_eq _ _ _ hdyn, hopen]
    have hres : ((handle_guess_word dict cfg uid bId raw now st).2).buildings
        = record_attempt bId ⟨uid, pr.2.username, now, norm_word raw⟩
            (decide ((norm_word raw).map upperChar = building.targetWord.map upperChar))
            st.buildings := by
      simp [handle_guess_word, hp, ha, hq, hlen, hm, hcfg, hla, hnodup, hco]
    rw [hres, record_attempt_find bId bId _ _ st.buildings d hdyn, if_pos rfl]
    refine ⟨_, rfl, ?_⟩
    by_cases hcn : (norm_word raw).map upperChar = building.targetWord.map upperChar
    · simp [hcn]
    · simp [hcn, hopen]
  · intro dict cfg uid bId raw now st pr building d hp ha hq hlen hdict hcfg hdyn
      hclosed
    have hm : (norm_word raw).map lowerChar ∈ dict := by simpa using hdict
    have hla : last_attempt_of st.buildings bId = d.lastAttempt := by
      simp [last_attempt_of, hdyn]
    have hco : is_closed_of st.buildings bId = true := by
      rw [is_closed_of_eq _ _ _ hdyn, hclosed]
    by_cases hdup : dupMatch d.lastAttempt (norm_word raw) = true
    · simp [handle_guess_word, hp, ha, hq, hlen, hm, hcfg, hla, hdup]
    · have hdup' : dupMatch d.lastAttempt (norm_word raw) = false := by
        simpa using hdup
      simp [handle_guess_word, hp, ha, hq, hlen, hm, hcfg, hla, hdup', hco]

/-- A session in which building 1 is already closed and its recorded
attempt is the secret word itself — exactly the state a closing guess
leaves behind. It is the turn of bob. -/
def closedDemoSt : ModelState :=
  ⟨[("1", ⟨"alice", 50, 3⟩), ("2", ⟨"bob", 5, 1⟩)], ["2", "1"],
   [⟨1, some ⟨"1", "alice", 3, "PEACH".toList⟩, true⟩], true⟩

/-- C4 counterexample: at a closed building whose recorded attempt is the
closing word, resubmitting that very word is rejected as DuplicateGuess,
not LocationClosed — the duplicate check runs first — so "every subsequent
guess attempt is rejected with LocationClosed" is false as stated, even
though the state still comes back unchanged. -/
theorem closed_reply_cex :
    handle_guess_word ["peach".toList] demoCfg "2" 1 "peach".toList 9 closedDemoSt
      = (GuessReply.duplicateGuess, closedDemoSt)
    ∧ GuessReply.duplicateGuess ≠ GuessReply.locationClosed
    ∧ (closedDemoSt.buildings.find? (fun e => e.id = 1)).map (fun d => d.isClosed)
        = some true := by
  refine ⟨rfl, ?_, rfl⟩
  decide

/-- Closed instance of `closed_flag_lifecycle`: a different guess at the
closed building is answered LocationClosed with the state unchanged. -/
theorem closed_flag_lifecycle_witness :
    handle_guess_word ["cheap".toList] demoCfg "2" 1 "cheap".toList 9 closedDemoSt
      = (GuessReply.locationClosed, closedDemoSt) := by
  have h := closed_flag_lifecycle.2.2.2.2.2 ["cheap".toList] demoCfg "2" 1
    "cheap".toList 9 closedDemoSt ("2", ⟨"bob", 5, 1⟩) ⟨1, "peach".toList⟩
    ⟨1, some ⟨"1", "alice", 3, "PEACH".toList⟩, true⟩
    (by decide) (by decide) (by decide) (by decide) (by decide) (by decide)
    (by decide) (by decide)
  rw [h]
  decide
